import Mathlib

/-!
# Verification development for `fonts/atm/main.cpp`

A shallow embedding of the text pipeline of `main.cpp` (the `TextWidget` class, the
start-up code of `ATMWindow::setFont` and `main`) and theorems about it.

Conventions of the embedding.

* FreeType, HarfBuzz and Qt are external collaborators.  What they return is a parameter of
  the model (`Collaborators`, `GlyphLoad`); what the program does with the returned values is
  translated from the source.
* A C++ `double` or `float` is embedded as the rational number it holds.  The only floating
  point operations of the source are: adding integers and multiples of `1/64` to the pen, and
  multiplying an axis value by `65536`.  Both are exact in binary floating point as long as the
  magnitudes stay below `2^46`, so inside that range the rational model loses nothing.
* Conversion of a floating point value to an integer type (`QPoint(int, int)` called with
  `double` arguments, `static_cast<FT_Fixed>`) truncates toward zero: `truncToInt`.
* Calls made on the collaborators are recorded, in program order, in a list of `Call`s.
  Output on `std::cout` is recorded only for the per-glyph position line.
-/

namespace ATM

/-! ## Constants and numeric conversions -/

/-- Source: `static const int FONT_SIZE = 80;`. -/
def FONT_SIZE : ℤ := 80

/-- Conversion of a floating point value to an integer type: truncation toward zero. -/
def truncToInt (q : ℚ) : ℤ := Int.tdiv q.num q.den

/-! ## `AxisVariations`: `std::map<std::string, float>` -/

/-- Source: `typedef std::map<std::string, float> AxisVariations;`.  The map is embedded as the
finite partial function it denotes (the program never iterates over it). -/
abbrev AxisVariations := String → Option ℚ

/-- The empty map. -/
def AxisVariations.empty : AxisVariations := fun _ => none

/-- Assignment through `operator[]`: `m[k] = x`. -/
def AxisVariations.assign (m : AxisVariations) (k : String) (x : ℚ) : AxisVariations :=
  fun j => if j = k then some x else m j

/-- Reading through `operator[]`: `m[k]` as an rvalue.  A key that is absent is inserted with a
value-initialised (`0.0f`) entry, so the map itself may change. -/
def AxisVariations.index (m : AxisVariations) (k : String) : ℚ × AxisVariations :=
  match m k with
  | some x => (x, m)
  | none => (0, m.assign k 0)

/-! ## Qt colours -/

/-- Qt: `qRgb(r, g, b) = (0xffu << 24) | ((r & 0xffu) << 16) | ((g & 0xffu) << 8) | (b & 0xffu)`. -/
def qRgb (r g b : ℤ) : ℕ :=
  (0xff <<< 24) ||| (((r % 4294967296).toNat &&& 0xff) <<< 16)
    ||| (((g % 4294967296).toNat &&& 0xff) <<< 8) ||| ((b % 4294967296).toNat &&& 0xff)

/-- Qt: `qRed(rgb) = (rgb >> 16) & 0xff`. -/
def qRed (rgb : ℕ) : ℕ := (rgb >>> 16) &&& 0xff

/-- Qt: `qGreen(rgb) = (rgb >> 8) & 0xff`. -/
def qGreen (rgb : ℕ) : ℕ := (rgb >>> 8) &&& 0xff

/-- Qt: `qBlue(rgb) = rgb & 0xff`. -/
def qBlue (rgb : ℕ) : ℕ := rgb &&& 0xff

/-- The colour table loop of `paint`:
`for (int i = 0; i < 256; ++i) palette.append(qRgb(255 - i, 255 - i, 255 - i));`. -/
def buildPalette : List ℕ :=
  (List.range 256).foldl
    (fun (palette : List ℕ) (i : ℕ) =>
      palette ++ [qRgb (255 - (i : ℤ)) (255 - (i : ℤ)) (255 - (i : ℤ))]) []

/-! ## HarfBuzz and FreeType data -/

/-- HarfBuzz `hb_glyph_info_t`, the fields the program reads. -/
structure hb_glyph_info_t where
  codepoint : ℕ
  cluster : ℕ
  deriving DecidableEq, Repr

/-- HarfBuzz `hb_glyph_position_t`; all four fields are in 1/64 pixel. -/
structure hb_glyph_position_t where
  x_advance : ℤ
  y_advance : ℤ
  x_offset : ℤ
  y_offset : ℤ
  deriving DecidableEq, Repr

/-- FreeType `FT_Bitmap`, the fields handed to `QImage`. -/
structure FT_Bitmap where
  rows : ℕ
  width : ℕ
  pitch : ℤ
  buffer : List ℕ
  deriving DecidableEq, Repr

/-- Source: `FT_Bitmap_New(&converted)`: an empty bitmap. -/
def FT_Bitmap_New : FT_Bitmap := ⟨0, 0, 0, []⟩

/-- Everything FreeType returns while one glyph is loaded and rasterised in the loop of `paint`.
Error codes are `FT_Error` values, `0` meaning success. -/
structure GlyphLoad where
  /-- Return value of `FT_Load_Glyph(ftFont_, gid, FT_LOAD_DEFAULT)`. -/
  load_error : ℤ
  /-- Return value of `FT_Get_Glyph(ftFont_->glyph, &glyph)`. -/
  get_error : ℤ
  /-- Whether `glyph->format == FT_GLYPH_FORMAT_BITMAP` after `FT_Get_Glyph`. -/
  format_is_bitmap : Bool
  /-- Return value of `FT_Glyph_To_Bitmap(&glyph, FT_RENDER_MODE_NORMAL, 0, false)`. -/
  to_bitmap_error : ℤ
  /-- Return value of `FT_Bitmap_Convert(freeTypeLibrary, &rendered->bitmap, &converted, 4)`. -/
  convert_error : ℤ
  /-- The glyph as an 8-bit bitmap: what a successful `FT_Bitmap_Convert` stores in `converted`.
  Its `rows` and `width` are those of the rendered bitmap the conversion reads. -/
  bitmap : FT_Bitmap
  /-- Left bearing `rendered->left`, in pixels. -/
  left : ℤ
  /-- Top bearing `rendered->top`, in pixels. -/
  top : ℤ
  /-- Outline advance `glyph->advance.x`, 16.16 fixed point. -/
  advance_x : ℤ
  /-- Outline advance `glyph->advance.y`, 16.16 fixed point. -/
  advance_y : ℤ
  deriving DecidableEq, Repr

/-- One entry of the shaping plan together with what FreeType returns for it. -/
structure PlanGlyph where
  info : hb_glyph_info_t
  pos : hb_glyph_position_t
  ft : GlyphLoad
  deriving DecidableEq, Repr

/-- A call of `painter->drawImage(QPoint(x, y), glyphImage)`; `glyphImage` wraps the buffer of
`converted` and carries the colour table. -/
structure DrawImage where
  x : ℤ
  y : ℤ
  image : FT_Bitmap
  colorTable : List ℕ
  deriving DecidableEq, Repr

/-- Calls on the collaborators, as recorded in program order.  `Face` is the state of the
FreeType face (the font handle). -/
inductive Call (Face : Type) where
  /-- Call of `FT_Set_Var_Design_Coordinates(ftFont_, 2, coord)`, with the coordinate vector. -/
  | setVarDesignCoordinates (coord : List ℤ)
  /-- Call of `FT_Load_Glyph(ftFont_, gid, FT_LOAD_DEFAULT)`, with the face state it is made
  on. -/
  | loadGlyph (face : Face) (gid : ℕ)
  /-- The line `position=x_position, y_position` written to `std::cout`. -/
  | printPosition (x_position : ℚ) (y_position : ℚ)
  /-- Call of `painter->drawImage(...)`. -/
  | drawImage (d : DrawImage)

/-- The `drawImage` calls of a call sequence, in order. -/
def drawn {Face : Type} (calls : List (Call Face)) : List DrawImage :=
  calls.filterMap fun c =>
    match c with
    | .drawImage d => some d
    | _ => none

/-- Qt: a `QImage` built on a pixel buffer is a null image, which `drawImage` does not paint,
when the buffer is missing or the width or height is not positive. -/
def DrawImage.isNull (d : DrawImage) : Bool :=
  d.image.buffer.isEmpty || decide (d.image.width = 0) || decide (d.image.rows = 0)

/-- The `drawImage` calls of a call sequence that put pixels on the surface, in order. -/
def blitted {Face : Type} (calls : List (Call Face)) : List DrawImage :=
  (drawn calls).filter fun d => !d.isNull

/-- Behaviour of the external collaborators, as far as the program depends on it. -/
structure Collaborators (Face : Type) where
  /-- Status returned by `FT_Set_Var_Design_Coordinates` and the face state after the call. -/
  FT_Set_Var_Design_Coordinates : Face → List ℤ → ℤ × Face
  /-- What loading and rasterising glyph `gid` on a face returns. -/
  glyphLoad : Face → ℕ → GlyphLoad
  /-- Whether `hb_ft_font_create(ftFont_, NULL)` returns a non-NULL font. -/
  hb_ft_font_create : Face → Bool
  /-- Output of `hb_shape` on the text, with a font wrapping the given face: glyph infos and
  positions. -/
  hb_shape : Face → String → List (hb_glyph_info_t × hb_glyph_position_t)

/-! ## `TextWidget` -/

/-- The data members of `TextWidget`.  `ftFont_` is the state of the face the pointer refers to;
`hbFont_` is `none` for `NULL` and otherwise the face the HarfBuzz font wraps. -/
structure TextWidget (Face : Type) where
  text_ : String
  ftFont_ : Face
  hbFont_ : Option Face
  language_ : String
  variations_ : AxisVariations
  shaping_active_ : Bool

/-- Source: `TextWidget::setText`. -/
def TextWidget.setText {Face : Type} (w : TextWidget Face) (text : String) : TextWidget Face :=
  { w with text_ := text }

/-- Source: `TextWidget::setFont`. -/
def TextWidget.setFont {Face : Type} (w : TextWidget Face) (ftFont : Face) : TextWidget Face :=
  { w with ftFont_ := ftFont }

/-- Source: `TextWidget::setVariations`; `update()` only schedules a repaint. -/
def TextWidget.setVariations {Face : Type} (w : TextWidget Face) (variations : AxisVariations) :
    TextWidget Face :=
  { w with variations_ := variations }

/-- Source: `TextWidget::setShapingActive`. -/
def TextWidget.setShapingActive {Face : Type} (w : TextWidget Face) (active : Bool) :
    TextWidget Face :=
  { w with shaping_active_ := active }

/-- Source: `TextWidget::recreateHarfbuzzFont`.  Returns the widget after the call and the calls
made.  The two reads of `variations_` go through `operator[]` and may insert keys. -/
def TextWidget.recreateHarfbuzzFont {Face : Type} (env : Collaborators Face)
    (w : TextWidget Face) : TextWidget Face × List (Call Face) :=
  let wght := w.variations_.index "wght"
  let wdth := wght.2.index "wdth"
  let coord : List ℤ := [truncToInt (wght.1 * 65536), truncToInt (wdth.1 * 65536)]
  let status := env.FT_Set_Var_Design_Coordinates w.ftFont_ coord
  let face := status.2
  let hbFont := if env.hb_ft_font_create face then some face else none
  ({ w with variations_ := wdth.2, ftFont_ := face, hbFont_ := hbFont },
    [Call.setVarDesignCoordinates coord, Call.loadGlyph face 123])

/-- The variables that live across iterations of the glyph loop of `paint`. -/
structure PaintLoop (Face : Type) where
  current_x : ℚ
  current_y : ℚ
  converted : FT_Bitmap
  calls : List (Call Face)

/-- State on entry to the glyph loop: `current_x = 0`, `current_y = 0`, `converted` empty. -/
def PaintLoop.begin {Face : Type} : PaintLoop Face := ⟨0, 0, FT_Bitmap_New, []⟩

/-- One iteration of the glyph loop of `paint` (source lines 96 to 132).  The return value of
`FT_Bitmap_Convert` is not read.  When the conversion fails (FreeType 2.12, allocation failure)
it has already stored the rows and width of the rendered bitmap in `converted` and leaves the
buffer and pitch of `converted` as they were. -/
def paintGlyph {Face : Type} (face : Face) (shaping_active_ : Bool) (palette : List ℕ)
    (st : PaintLoop Face) (g : PlanGlyph) : PaintLoop Face :=
  let x_position : ℚ := st.current_x + (g.pos.x_offset : ℚ) / 64
  let y_position : ℚ := st.current_y + (g.pos.y_offset : ℚ) / 64
  let calls := st.calls ++ [Call.printPosition x_position y_position,
    Call.loadGlyph face g.info.codepoint]
  if g.ft.load_error ≠ 0 then { st with calls := calls }
  else if g.ft.get_error ≠ 0 then { st with calls := calls }
  else if g.ft.format_is_bitmap = false ∧ g.ft.to_bitmap_error ≠ 0 then
    { st with calls := calls }
  else
    let converted : FT_Bitmap := if g.ft.convert_error = 0 then g.ft.bitmap
      else ⟨g.ft.bitmap.rows, g.ft.bitmap.width, st.converted.pitch, st.converted.buffer⟩
    let glyphImage : DrawImage :=
      ⟨truncToInt (st.current_x + (g.ft.left : ℚ)),
       truncToInt (st.current_y + (FONT_SIZE : ℚ) - (g.ft.top : ℚ)),
       converted, palette⟩
    let calls := calls ++ [Call.drawImage glyphImage]
    if shaping_active_ then
      ⟨st.current_x + (g.pos.x_advance : ℚ) / 64, st.current_y + (g.pos.y_advance : ℚ) / 64,
        converted, calls⟩
    else
      ⟨st.current_x + ((g.ft.advance_x >>> (16 : ℕ) : ℤ) : ℚ),
        st.current_y + ((g.ft.advance_y >>> (16 : ℕ) : ℤ) : ℚ), converted, calls⟩

/-- Whether the loop of `paint` reaches `drawImage` for a glyph: none of the three `continue`
statements is taken. -/
def reachesDraw (ft : GlyphLoad) : Bool :=
  decide (ft.load_error = 0) && decide (ft.get_error = 0) &&
    (ft.format_is_bitmap || decide (ft.to_bitmap_error = 0))

/-- The glyph loop of `paint` over a whole shaping plan. -/
def paintLoop {Face : Type} (face : Face) (shaping_active_ : Bool) (palette : List ℕ)
    (plan : List PlanGlyph) : PaintLoop Face :=
  plan.foldl (paintGlyph face shaping_active_ palette) PaintLoop.begin

/-- What one run of `paint` leaves behind: the widget, the calls made, and the final pen. -/
structure PaintResult (Face : Type) where
  widget : TextWidget Face
  calls : List (Call Face)
  current_x : ℚ
  current_y : ℚ

/-- The shaping plan of a run of `paint`: the output of `hb_shape` on `hbFont_`, each glyph paired
with what FreeType returns for its glyph id on `ftFont_`. -/
def shapingPlan {Face : Type} (env : Collaborators Face) (hbFont : Face) (ftFont : Face)
    (text : String) : List PlanGlyph :=
  (env.hb_shape hbFont text).map fun g => ⟨g.1, g.2, env.glyphLoad ftFont g.1.codepoint⟩

/-- Source: `TextWidget::paint`. -/
def TextWidget.paint {Face : Type} (env : Collaborators Face) (w : TextWidget Face) :
    PaintResult Face :=
  let r := w.recreateHarfbuzzFont env
  match r.1.hbFont_ with
  | none => ⟨r.1, r.2, 0, 0⟩
  | some hbFont =>
    let st := paintLoop r.1.ftFont_ r.1.shaping_active_ buildPalette
      (shapingPlan env hbFont r.1.ftFont_ r.1.text_)
    ⟨r.1, r.2 ++ st.calls, st.current_x, st.current_y⟩

/-! ## Start-up: `ATMWindow::setFont` and `main` -/

/-- What the start-up code does, in program order. -/
inductive StartupCall where
  /-- The usage line on `std::cerr`. -/
  | usage
  /-- Call of `FT_Init_FreeType(&freeTypeLibrary)`. -/
  | FT_Init_FreeType
  /-- Construction of `ATMWindow window`. -/
  | createWindow
  /-- Call of `FT_New_Face(freeTypeLibrary, path, 0, &font_)`. -/
  | FT_New_Face (path : String)
  /-- Call of `FT_Set_Char_Size(font_, width, height, 0, 0)`. -/
  | FT_Set_Char_Size (width : ℤ) (height : ℤ)
  /-- Call of `textWidget_->setFont(font_)`. -/
  | widgetSetFont
  /-- Call of `textWidget_->setText(text)`. -/
  | widgetSetText (text : String)
  /-- Call of `app.exec()`: the interactive session, in which the widget is painted. -/
  | exec
  /-- Call of `FT_Done_FreeType(freeTypeLibrary)`. -/
  | FT_Done_FreeType
  deriving DecidableEq, Repr

/-- Source: `ATMWindow::setFont`.  `newFaceStatus` is the return value of `FT_New_Face`; the
source does not read it. -/
def ATMWindow.setFont (newFaceStatus : ℤ) (path : String) : List StartupCall :=
  let _unread := newFaceStatus
  [StartupCall.FT_New_Face path,
   StartupCall.FT_Set_Char_Size (FONT_SIZE <<< 6) (FONT_SIZE <<< 6),
   StartupCall.widgetSetFont]

/-- Source: `main`, after command line parsing.  `args` are the positional arguments, `text` the
value of `--text`, `newFace` gives the return value of `FT_New_Face` for a path, `execStatus`
is what `app.exec()` returns.  The result is the calls made and the exit status. -/
def main (args : List String) (text : String) (newFace : String → ℤ) (execStatus : ℤ) :
    List StartupCall × ℤ :=
  match args with
  | [] => ([StartupCall.usage], 1)
  | source :: _ =>
    ([StartupCall.FT_Init_FreeType, StartupCall.createWindow]
      ++ ATMWindow.setFont (newFace source) source
      ++ [StartupCall.widgetSetText text, StartupCall.exec, StartupCall.FT_Done_FreeType],
     execStatus)

/-! ## Spec-side definitions, used to compare the code with the stated contract -/

/-- Fixed-point design coordinate of one axis as the contract words it: the value of the map
times `65536`, truncated, when the tag is present, and `0` when it is absent. -/
def specAxisCoordinate (v : AxisVariations) (tag : String) : ℤ :=
  match v tag with
  | some x => truncToInt (x * 65536)
  | none => 0

/-- Whether the loop of `paint` is required to draw a glyph by the failure-isolation contract:
none of the load or conversion steps failed. -/
def specRasterized (ft : GlyphLoad) : Bool :=
  decide (ft.load_error = 0) && decide (ft.get_error = 0) &&
    (ft.format_is_bitmap || decide (ft.to_bitmap_error = 0)) && decide (ft.convert_error = 0)

/-- Draw position as the contract words it: pen plus shaping offset (1/64 pixel units converted
to pixels) plus bearing, the top bearing subtracted from `FONT_SIZE`. -/
def specDrawPosition (pen_x pen_y : ℚ) (g : PlanGlyph) : ℚ × ℚ :=
  (pen_x + (g.pos.x_offset : ℚ) / 64 + (g.ft.left : ℚ),
   pen_y + (g.pos.y_offset : ℚ) / 64 + ((FONT_SIZE : ℚ) - (g.ft.top : ℚ)))

/-! ## Concrete inputs -/

/-- A font engine over faces that are just the coordinate vector last set; every glyph loads,
and the text is shaped to one glyph per character. -/
def sampleEnv : Collaborators (List ℤ) where
  FT_Set_Var_Design_Coordinates := fun _ coord => (0, coord)
  glyphLoad := fun _ gid => ⟨0, 0, false, 0, 0, ⟨1, 1, 4, [gid]⟩, 2, 60, 50 * 65536, 0⟩
  hb_ft_font_create := fun _ => true
  hb_shape := fun _ text => text.toList.map fun c => (⟨c.toNat, 0⟩, ⟨50 * 64, 0, 0, 0⟩)

/-- A widget showing the text AV with shaping switched on and no variations set. -/
def sampleWidget : TextWidget (List ℤ) :=
  ⟨"AV", [], none, "und", AxisVariations.empty, true⟩

/-- Variations with both axes, as `RedrawText` builds them. -/
def sampleVariations : AxisVariations :=
  (AxisVariations.empty.assign "wdth" (9 / 10)).assign "wght" (8 / 5)

/-- A glyph that loads and converts without error, with zero bearings. -/
def plainLoad : GlyphLoad := ⟨0, 0, false, 0, 0, ⟨1, 1, 4, [255]⟩, 0, 0, 65536, 0⟩

/-- A glyph with a shaping offset of one pixel to the right. -/
def offsetGlyph : PlanGlyph := ⟨⟨36, 0⟩, ⟨64, 0, 64, 0⟩, plainLoad⟩

/-- A glyph one pixel wide that loads and converts without error; its bitmap is one pixel of
full coverage. -/
def plainGlyph : PlanGlyph := ⟨⟨35, 0⟩, ⟨64, 0, 0, 0⟩, plainLoad⟩

/-- A glyph for which only `FT_Bitmap_Convert` fails; rendered, it is one pixel of coverage 7. -/
def convertFailGlyph : PlanGlyph :=
  ⟨⟨36, 1⟩, ⟨64, 0, 0, 0⟩, ⟨0, 0, false, 0, 64, ⟨1, 1, 4, [7]⟩, 0, 0, 65536, 0⟩⟩

/-- A glyph for which `FT_Load_Glyph` fails. -/
def loadFailGlyph : PlanGlyph :=
  ⟨⟨9999, 0⟩, ⟨64, 0, 0, 0⟩, ⟨1, 0, false, 0, 0, ⟨0, 0, 0, []⟩, 0, 0, 65536, 0⟩⟩

/-- A glyph two pixels wide in both units: 128/64 and 131072/65536. -/
def wholePixelGlyph : PlanGlyph :=
  ⟨⟨36, 0⟩, ⟨128, 0, 0, 0⟩, ⟨0, 0, false, 0, 0, ⟨1, 1, 4, [255]⟩, 0, 0, 131072, 0⟩⟩

/-! ## Supporting lemmas -/

theorem truncToInt_zero : truncToInt 0 = 0 := by
  simp [truncToInt]

theorem shiftRight_of_whole_pixels (b : ℤ) (hb : (65536 : ℤ) ∣ b) :
    (Int.cast (b >>> (16 : ℕ)) : ℚ) = (b : ℚ) / 65536 := by
  obtain ⟨c, rfl⟩ := hb
  rw [Int.shiftRight_eq_div_pow]
  have h : (65536 * c) / ((2 ^ 16 : ℕ) : ℤ) = c := by
    norm_num
  rw [h]
  push_cast
  field_simp

theorem foldl_append_singleton {α β : Type} (f : α → β) (l : List α) (init : List β) :
    l.foldl (fun acc a => acc ++ [f a]) init = init ++ l.map f := by
  induction l generalizing init with
  | nil => simp
  | cons a t ih => simp [ih]

theorem buildPalette_eq_map :
    buildPalette = (List.range 256).map
      (fun i : ℕ => qRgb (255 - (i : ℤ)) (255 - (i : ℤ)) (255 - (i : ℤ))) := by
  unfold buildPalette
  rw [foldl_append_singleton (fun i : ℕ => qRgb (255 - (i : ℤ)) (255 - (i : ℤ)) (255 - (i : ℤ)))]
  simp

theorem channels_of_grey (i : ℕ) (h : i < 256) :
    qRed (qRgb (255 - (i : ℤ)) (255 - (i : ℤ)) (255 - (i : ℤ))) = 255 - i ∧
    qGreen (qRgb (255 - (i : ℤ)) (255 - (i : ℤ)) (255 - (i : ℤ))) = 255 - i ∧
    qBlue (qRgb (255 - (i : ℤ)) (255 - (i : ℤ)) (255 - (i : ℤ))) = 255 - i := by
  interval_cases i <;> decide

theorem buildPalette_getElem (i : ℕ) (h : i < 256) :
    buildPalette[i]? = some (qRgb (255 - (i : ℤ)) (255 - (i : ℤ)) (255 - (i : ℤ))) := by
  rw [buildPalette_eq_map]
  simp [List.getElem?_map, List.getElem?_range h]

theorem index_fst (m : AxisVariations) (k : String) : (m.index k).1 = (m k).getD 0 := by
  unfold AxisVariations.index
  cases h : m k <;> simp

theorem index_snd_getD (m : AxisVariations) (k j : String) :
    ((m.index k).2 j).getD 0 = (m j).getD 0 := by
  unfold AxisVariations.index
  cases h : m k with
  | some x => simp
  | none =>
    by_cases hj : j = k
    · subst hj
      simp [AxisVariations.assign, h]
    · simp [AxisVariations.assign, hj]

theorem specAxisCoordinate_eq (v : AxisVariations) (tag : String) :
    specAxisCoordinate v tag = truncToInt ((v tag).getD 0 * 65536) := by
  unfold specAxisCoordinate
  cases h : v tag <;> simp [truncToInt_zero]

theorem recreate_calls {Face : Type} (env : Collaborators Face) (w : TextWidget Face) :
    (w.recreateHarfbuzzFont env).2 =
      [Call.setVarDesignCoordinates
          [specAxisCoordinate w.variations_ "wght", specAxisCoordinate w.variations_ "wdth"],
        Call.loadGlyph (env.FT_Set_Var_Design_Coordinates w.ftFont_
          [specAxisCoordinate w.variations_ "wght", specAxisCoordinate w.variations_ "wdth"]).2
          123] := by
  simp only [TextWidget.recreateHarfbuzzFont, specAxisCoordinate_eq, index_fst, index_snd_getD]

theorem paintGlyph_of_skip {Face : Type} (face : Face) (sh : Bool) (pal : List ℕ)
    (st : PaintLoop Face) (g : PlanGlyph) (h : reachesDraw g.ft = false) :
    paintGlyph face sh pal st g =
      ⟨st.current_x, st.current_y, st.converted,
        st.calls ++ [Call.printPosition (st.current_x + (g.pos.x_offset : ℚ) / 64)
            (st.current_y + (g.pos.y_offset : ℚ) / 64),
          Call.loadGlyph face g.info.codepoint]⟩ := by
  unfold reachesDraw at h
  unfold paintGlyph
  by_cases h1 : g.ft.load_error = 0
  · by_cases h2 : g.ft.get_error = 0
    · have h3 : g.ft.format_is_bitmap = false ∧ g.ft.to_bitmap_error ≠ 0 := by
        simp [h1, h2] at h
        exact h
      simp [h1, h2, h3]
    · simp [h1, h2]
  · simp [h1]

theorem paintGlyph_of_draw {Face : Type} (face : Face) (sh : Bool) (pal : List ℕ)
    (st : PaintLoop Face) (g : PlanGlyph) (h : reachesDraw g.ft = true) :
    paintGlyph face sh pal st g =
      ⟨st.current_x + (if sh then (g.pos.x_advance : ℚ) / 64
          else ((g.ft.advance_x >>> (16 : ℕ) : ℤ) : ℚ)),
        st.current_y + (if sh then (g.pos.y_advance : ℚ) / 64
          else ((g.ft.advance_y >>> (16 : ℕ) : ℤ) : ℚ)),
        (if g.ft.convert_error = 0 then g.ft.bitmap
          else ⟨g.ft.bitmap.rows, g.ft.bitmap.width, st.converted.pitch, st.converted.buffer⟩),
        st.calls ++ [Call.printPosition (st.current_x + (g.pos.x_offset : ℚ) / 64)
            (st.current_y + (g.pos.y_offset : ℚ) / 64),
          Call.loadGlyph face g.info.codepoint,
          Call.drawImage ⟨truncToInt (st.current_x + (g.ft.left : ℚ)),
            truncToInt (st.current_y + (FONT_SIZE : ℚ) - (g.ft.top : ℚ)),
            (if g.ft.convert_error = 0 then g.ft.bitmap
          else ⟨g.ft.bitmap.rows, g.ft.bitmap.width, st.converted.pitch, st.converted.buffer⟩), pal⟩]⟩ := by
  unfold reachesDraw at h
  simp only [Bool.and_eq_true, Bool.or_eq_true, decide_eq_true_eq] at h
  obtain ⟨⟨h1, h2⟩, h3⟩ := h
  have h3n : ¬ (g.ft.format_is_bitmap = false ∧ g.ft.to_bitmap_error ≠ 0) := by
    rintro ⟨a, b⟩
    rcases h3 with h3 | h3
    · rw [a] at h3; exact Bool.false_ne_true h3
    · exact b h3
  unfold paintGlyph
  cases sh <;> simp [h1, h2, h3n]

/-- Pen after running the loop from any state: each glyph moves it by nothing when skipped, by
the shaped advance over 64 when shaping is active, by the outline advance shifted right by 16
otherwise. -/
theorem pen_after_foldl {Face : Type} (face : Face) (sh : Bool) (pal : List ℕ)
    (plan : List PlanGlyph) (st : PaintLoop Face) :
    (plan.foldl (paintGlyph face sh pal) st).current_x = st.current_x +
      (plan.map fun g : PlanGlyph => if reachesDraw g.ft then
        (if sh then (g.pos.x_advance : ℚ) / 64 else ((g.ft.advance_x >>> (16 : ℕ) : ℤ) : ℚ))
        else 0).sum ∧
    (plan.foldl (paintGlyph face sh pal) st).current_y = st.current_y +
      (plan.map fun g : PlanGlyph => if reachesDraw g.ft then
        (if sh then (g.pos.y_advance : ℚ) / 64 else ((g.ft.advance_y >>> (16 : ℕ) : ℤ) : ℚ))
        else 0).sum := by
  induction plan generalizing st with
  | nil => simp
  | cons g t ih =>
    simp only [List.foldl_cons, List.map_cons, List.sum_cons]
    rw [(ih _).1, (ih _).2]
    cases h : reachesDraw g.ft
    · rw [paintGlyph_of_skip face sh pal st g h]
      simp
    · rw [paintGlyph_of_draw face sh pal st g h]
      simp [add_assoc]

theorem drawn_append {Face : Type} (a b : List (Call Face)) :
    drawn (a ++ b) = drawn a ++ drawn b := by
  simp [drawn, List.filterMap_append]

theorem drawn_length_foldl {Face : Type} (face : Face) (sh : Bool) (pal : List ℕ)
    (plan : List PlanGlyph) (st : PaintLoop Face) :
    (drawn (plan.foldl (paintGlyph face sh pal) st).calls).length =
      (drawn st.calls).length + (plan.filter fun g => reachesDraw g.ft).length := by
  induction plan generalizing st with
  | nil => simp
  | cons g t ih =>
    simp only [List.foldl_cons]
    rw [ih]
    cases h : reachesDraw g.ft
    · rw [paintGlyph_of_skip face sh pal st g h]
      simp [drawn_append, drawn, List.filter_cons, h]
    · rw [paintGlyph_of_draw face sh pal st g h]
      simp [drawn_append, drawn, List.filter_cons, h, add_assoc]
      omega

/-- The three checked failures are isolated: the loop draws exactly as many images as there are
glyphs for which none of `FT_Load_Glyph`, `FT_Get_Glyph`, `FT_Glyph_To_Bitmap` failed. -/
theorem drawn_length_paintLoop {Face : Type} (face : Face) (sh : Bool) (pal : List ℕ)
    (plan : List PlanGlyph) :
    (drawn (paintLoop face sh pal plan).calls).length =
      (plan.filter fun g => reachesDraw g.ft).length := by
  unfold paintLoop
  rw [drawn_length_foldl]
  simp [PaintLoop.begin, drawn]

theorem recreate_ftFont {Face : Type} (env : Collaborators Face) (w : TextWidget Face) :
    (w.recreateHarfbuzzFont env).1.ftFont_ = (env.FT_Set_Var_Design_Coordinates w.ftFont_
      [specAxisCoordinate w.variations_ "wght", specAxisCoordinate w.variations_ "wdth"]).2 := by
  simp only [TextWidget.recreateHarfbuzzFont, specAxisCoordinate_eq, index_fst, index_snd_getD]

theorem recreate_hbFont {Face : Type} (env : Collaborators Face) (w : TextWidget Face) :
    (w.recreateHarfbuzzFont env).1.hbFont_ =
      if env.hb_ft_font_create (w.recreateHarfbuzzFont env).1.ftFont_
      then some (w.recreateHarfbuzzFont env).1.ftFont_ else none := by
  simp only [TextWidget.recreateHarfbuzzFont]

theorem recreate_text {Face : Type} (env : Collaborators Face) (w : TextWidget Face) :
    (w.recreateHarfbuzzFont env).1.text_ = w.text_ := by
  simp only [TextWidget.recreateHarfbuzzFont]

theorem recreate_shaping {Face : Type} (env : Collaborators Face) (w : TextWidget Face) :
    (w.recreateHarfbuzzFont env).1.shaping_active_ = w.shaping_active_ := by
  simp only [TextWidget.recreateHarfbuzzFont]

theorem recreate_variations {Face : Type} (env : Collaborators Face) (w : TextWidget Face)
    (tag : String) :
    specAxisCoordinate (w.recreateHarfbuzzFont env).1.variations_ tag =
      specAxisCoordinate w.variations_ tag := by
  simp only [TextWidget.recreateHarfbuzzFont, specAxisCoordinate_eq, index_snd_getD]

theorem paint_widget {Face : Type} (env : Collaborators Face) (w : TextWidget Face) :
    (w.paint env).widget = (w.recreateHarfbuzzFont env).1 := by
  simp only [TextWidget.paint]
  split <;> rfl

theorem paint_congr {Face : Type} (env : Collaborators Face) (a b : TextWidget Face)
    (hf : (a.recreateHarfbuzzFont env).1.ftFont_ = (b.recreateHarfbuzzFont env).1.ftFont_)
    (ht : a.text_ = b.text_) (hs : a.shaping_active_ = b.shaping_active_)
    (hc : (a.recreateHarfbuzzFont env).2 = (b.recreateHarfbuzzFont env).2) :
    (a.paint env).calls = (b.paint env).calls ∧ (a.paint env).current_x = (b.paint env).current_x
      ∧ (a.paint env).current_y = (b.paint env).current_y := by
  have hh : (a.recreateHarfbuzzFont env).1.hbFont_ = (b.recreateHarfbuzzFont env).1.hbFont_ := by
    rw [recreate_hbFont, recreate_hbFont env b, hf]
  have ht2 : (a.recreateHarfbuzzFont env).1.text_ = (b.recreateHarfbuzzFont env).1.text_ := by
    rw [recreate_text, recreate_text, ht]
  have hs2 : (a.recreateHarfbuzzFont env).1.shaping_active_ =
      (b.recreateHarfbuzzFont env).1.shaping_active_ := by
    rw [recreate_shaping, recreate_shaping, hs]
  simp only [TextWidget.paint, hh, hf, ht2, hs2, hc]
  cases (b.recreateHarfbuzzFont env).1.hbFont_ <;> simp

/-- C10. The colour table built in `paint` has exactly 256 entries; for every index `i` below
256, entry `i` is the grey `qRgb(255 - i, 255 - i, 255 - i)`, whose red, green and blue channels
are all `255 - i`; entry 0 is white, entry 255 is black, and every larger index has a strictly
smaller channel value, that is a strictly darker grey. -/
theorem palette_is_grey_ramp (i : ℕ) (hi : i < 256) :
    buildPalette.length = 256 ∧
    buildPalette[i]? = some (qRgb (255 - (i : ℤ)) (255 - (i : ℤ)) (255 - (i : ℤ))) ∧
    qRed (qRgb (255 - (i : ℤ)) (255 - (i : ℤ)) (255 - (i : ℤ))) = 255 - i ∧
    qGreen (qRgb (255 - (i : ℤ)) (255 - (i : ℤ)) (255 - (i : ℤ))) = 255 - i ∧
    qBlue (qRgb (255 - (i : ℤ)) (255 - (i : ℤ)) (255 - (i : ℤ))) = 255 - i ∧
    buildPalette[0]? = some 0xffffffff ∧
    buildPalette[255]? = some 0xff000000 ∧
    (∀ j : ℕ, i < j → j < 256 → ∀ a b : ℕ, buildPalette[i]? = some a → buildPalette[j]? = some b →
      qRed b < qRed a ∧ qGreen b < qGreen a ∧ qBlue b < qBlue a) := by
  refine ⟨?_, buildPalette_getElem i hi, (channels_of_grey i hi).1, (channels_of_grey i hi).2.1,
    (channels_of_grey i hi).2.2, ?_, ?_, ?_⟩
  · rw [buildPalette_eq_map]; simp
  · rw [buildPalette_getElem 0 (by decide)]; decide
  · rw [buildPalette_getElem 255 (by decide)]; decide
  · intro j hij hj a b ha hb
    rw [buildPalette_getElem i hi] at ha
    rw [buildPalette_getElem j hj] at hb
    cases ha
    cases hb
    obtain ⟨r1, g1, b1⟩ := channels_of_grey i hi
    obtain ⟨r2, g2, b2⟩ := channels_of_grey j hj
    rw [r1, g1, b1, r2, g2, b2]
    omega

/-- Witness of C10 at index 100. -/
theorem palette_is_grey_ramp_witness :
    (100 : ℕ) < 256 ∧
    (buildPalette.length = 256 ∧
    buildPalette[100]? = some (qRgb (255 - ((100 : ℕ) : ℤ)) (255 - ((100 : ℕ) : ℤ))
      (255 - ((100 : ℕ) : ℤ))) ∧
    qRed (qRgb (255 - ((100 : ℕ) : ℤ)) (255 - ((100 : ℕ) : ℤ)) (255 - ((100 : ℕ) : ℤ)))
      = 255 - 100 ∧
    qGreen (qRgb (255 - ((100 : ℕ) : ℤ)) (255 - ((100 : ℕ) : ℤ)) (255 - ((100 : ℕ) : ℤ)))
      = 255 - 100 ∧
    qBlue (qRgb (255 - ((100 : ℕ) : ℤ)) (255 - ((100 : ℕ) : ℤ)) (255 - ((100 : ℕ) : ℤ)))
      = 255 - 100 ∧
    buildPalette[0]? = some 0xffffffff ∧
    buildPalette[255]? = some 0xff000000 ∧
    (∀ j : ℕ, 100 < j → j < 256 → ∀ a b : ℕ, buildPalette[100]? = some a →
      buildPalette[j]? = some b → qRed b < qRed a ∧ qGreen b < qGreen a ∧ qBlue b < qBlue a)) :=
  ⟨by decide, palette_is_grey_ramp 100 (by decide)⟩

/-- C5. For every map of variations and every font engine, the coordinate vector that
`recreateHarfbuzzFont` hands to `FT_Set_Var_Design_Coordinates` is, entry for entry, the value
of wght and of wdth times 65536 truncated to an integer when the key is present and 0 when it
is absent; the computation is total and does not read the face. -/
theorem recreate_coordinates_default_zero {Face : Type} (env : Collaborators Face)
    (w : TextWidget Face) :
    (w.recreateHarfbuzzFont env).2.head? = some (Call.setVarDesignCoordinates
      [(match w.variations_ "wght" with
        | some x => truncToInt (x * 65536)
        | none => 0),
       (match w.variations_ "wdth" with
        | some x => truncToInt (x * 65536)
        | none => 0)]) := by
  rw [recreate_calls]
  rfl

/-- C3. The pen starts at (0, 0).  For every plan, either advance policy and every `k`, the pen
before glyph `k` (the loop state after the first `k` glyphs, from which the loop continues over
the remaining ones) is the sum, over the glyphs before `k` that were drawn, of the shaped
advance divided by 64 when `shaping_active_` is true and of the outline advance shifted right by
16 when it is false; a glyph that is skipped moves the pen by nothing. -/
theorem pen_is_sum_of_advances {Face : Type} (face : Face) (shaping_active_ : Bool)
    (palette : List ℕ) (plan : List PlanGlyph) (k : ℕ) :
    (PaintLoop.begin : PaintLoop Face).current_x = 0 ∧
    (PaintLoop.begin : PaintLoop Face).current_y = 0 ∧
    paintLoop face shaping_active_ palette plan =
      (plan.drop k).foldl (paintGlyph face shaping_active_ palette)
        (paintLoop face shaping_active_ palette (plan.take k)) ∧
    (paintLoop face shaping_active_ palette (plan.take k)).current_x =
      ((plan.take k).map fun g : PlanGlyph => if reachesDraw g.ft then
        (if shaping_active_ then (g.pos.x_advance : ℚ) / 64
          else ((g.ft.advance_x >>> (16 : ℕ) : ℤ) : ℚ))
        else 0).sum ∧
    (paintLoop face shaping_active_ palette (plan.take k)).current_y =
      ((plan.take k).map fun g : PlanGlyph => if reachesDraw g.ft then
        (if shaping_active_ then (g.pos.y_advance : ℚ) / 64
          else ((g.ft.advance_y >>> (16 : ℕ) : ℤ) : ℚ))
        else 0).sum := by
  refine ⟨rfl, rfl, ?_, ?_, ?_⟩
  · unfold paintLoop
    rw [← List.foldl_append, List.take_append_drop]
  · unfold paintLoop
    rw [(pen_after_foldl face shaping_active_ palette (plan.take k) PaintLoop.begin).1]
    simp [PaintLoop.begin]
  · unfold paintLoop
    rw [(pen_after_foldl face shaping_active_ palette (plan.take k) PaintLoop.begin).2]
    simp [PaintLoop.begin]

/-- C1, evaluated at the failing input: a single glyph that rasterises without error, with
zero bearings and a shaping offset of 64 (one pixel to the right).  The position written to the
log is pen plus offset, (1, 0); the contract asks for the image at (1, 80); `drawImage` is
called at (0, 80), the offset being left out. -/
theorem draw_position_ignores_offset :
    (paintLoop () true [] [offsetGlyph]).calls =
      [Call.printPosition 1 0, Call.loadGlyph () 36,
        Call.drawImage ⟨0, 80, ⟨1, 1, 4, [255]⟩, []⟩] ∧
    specDrawPosition 0 0 offsetGlyph = (1, 80) := by
  constructor
  · have h : reachesDraw offsetGlyph.ft = true := by decide
    simp only [paintLoop, List.foldl_cons, List.foldl_nil]
    rw [paintGlyph_of_draw () true [] PaintLoop.begin offsetGlyph h]
    simp [PaintLoop.begin, offsetGlyph, plainLoad, FONT_SIZE, truncToInt]
  · simp [specDrawPosition, offsetGlyph, plainLoad, FONT_SIZE]

/-- C2, evaluated at the failing input: a plan of two glyphs, the first rasterised without
error, the second with `FT_Bitmap_Convert` failing.  The contract asks for one image, that of
the first glyph; the loop paints two: for the failed glyph it calls `drawImage` at the pen
position (1, 80) with the pixel buffer the first glyph left in `converted`, a non-null image. -/
theorem convert_failure_still_draws :
    blitted (paintLoop () true [] [plainGlyph, convertFailGlyph]).calls =
      [⟨0, 80, ⟨1, 1, 4, [255]⟩, []⟩, ⟨1, 80, ⟨1, 1, 4, [255]⟩, []⟩] ∧
    ([plainGlyph, convertFailGlyph].filter fun g => specRasterized g.ft) = [plainGlyph] ∧
    specRasterized convertFailGlyph.ft = false := by
  refine ⟨?_, by decide, by decide⟩
  have h1 : reachesDraw plainGlyph.ft = true := by decide
  have h2 : reachesDraw convertFailGlyph.ft = true := by decide
  simp only [paintLoop, List.foldl_cons, List.foldl_nil]
  rw [paintGlyph_of_draw () true [] PaintLoop.begin plainGlyph h1, paintGlyph_of_draw _ _ _ _ _ h2]
  simp [PaintLoop.begin, plainGlyph, plainLoad, convertFailGlyph, FONT_SIZE, truncToInt, drawn,
    blitted, DrawImage.isNull]

/-- C4. For every plan in which the shaped advance and the outline advance of each glyph denote
the same distance, with outline advances as `FT_Load_Glyph` returns them under
`FT_LOAD_DEFAULT`, grid-fitted to whole pixels (a multiple of 65536 in 16.16), the pen at the
end of the loop is the same under the shaped and the unshaped policy. -/
theorem advance_policies_agree_on_whole_pixels {Face : Type} (face : Face) (palette : List ℕ)
    (plan : List PlanGlyph)
    (hsame : ∀ g ∈ plan, (g.pos.x_advance : ℚ) / 64 = (g.ft.advance_x : ℚ) / 65536 ∧
      (g.pos.y_advance : ℚ) / 64 = (g.ft.advance_y : ℚ) / 65536)
    (hwhole : ∀ g ∈ plan, (65536 : ℤ) ∣ g.ft.advance_x ∧ (65536 : ℤ) ∣ g.ft.advance_y) :
    (paintLoop face true palette plan).current_x =
      (paintLoop face false palette plan).current_x ∧
    (paintLoop face true palette plan).current_y =
      (paintLoop face false palette plan).current_y := by
  have key : ∀ a b : ℤ, (a : ℚ) / 64 = (b : ℚ) / 65536 → (65536 : ℤ) ∣ b →
      (a : ℚ) / 64 = Int.cast (b >>> (16 : ℕ)) := by
    intro a b hab hb
    exact hab.trans (shiftRight_of_whole_pixels b hb).symm
  unfold paintLoop
  rw [(pen_after_foldl face true palette plan PaintLoop.begin).1,
    (pen_after_foldl face false palette plan PaintLoop.begin).1,
    (pen_after_foldl face true palette plan PaintLoop.begin).2,
    (pen_after_foldl face false palette plan PaintLoop.begin).2]
  constructor
  · congr 2
    apply List.map_congr_left
    intro g hg
    cases reachesDraw g.ft
    · simp
    · simpa using key _ _ (hsame g hg).1 (hwhole g hg).1
  · congr 2
    apply List.map_congr_left
    intro g hg
    cases reachesDraw g.ft
    · simp
    · simpa using key _ _ (hsame g hg).2 (hwhole g hg).2

/-- Witness of C4: a two pixel wide glyph, a one pixel wide glyph and a glyph that fails to
load; under either policy the pen ends three pixels to the right. -/
theorem advance_policies_agree_on_whole_pixels_witness :
    (∀ g ∈ [wholePixelGlyph, plainGlyph, loadFailGlyph],
      (g.pos.x_advance : ℚ) / 64 = (g.ft.advance_x : ℚ) / 65536 ∧
      (g.pos.y_advance : ℚ) / 64 = (g.ft.advance_y : ℚ) / 65536) ∧
    (∀ g ∈ [wholePixelGlyph, plainGlyph, loadFailGlyph],
      (65536 : ℤ) ∣ g.ft.advance_x ∧ (65536 : ℤ) ∣ g.ft.advance_y) ∧
    ((paintLoop () true [] [wholePixelGlyph, plainGlyph, loadFailGlyph]).current_x =
      (paintLoop () false [] [wholePixelGlyph, plainGlyph, loadFailGlyph]).current_x ∧
    (paintLoop () true [] [wholePixelGlyph, plainGlyph, loadFailGlyph]).current_y =
      (paintLoop () false [] [wholePixelGlyph, plainGlyph, loadFailGlyph]).current_y) ∧
    (paintLoop () true [] [wholePixelGlyph, plainGlyph, loadFailGlyph]).current_x = 3 :=
  have h1 : ∀ g ∈ [wholePixelGlyph, plainGlyph, loadFailGlyph],
      (g.pos.x_advance : ℚ) / 64 = (g.ft.advance_x : ℚ) / 65536 ∧
      (g.pos.y_advance : ℚ) / 64 = (g.ft.advance_y : ℚ) / 65536 := by
    intro g hg
    simp only [List.mem_cons, List.mem_singleton, List.not_mem_nil, or_false] at hg
    rcases hg with rfl | rfl | rfl <;> norm_num [wholePixelGlyph, plainGlyph, plainLoad, loadFailGlyph]
  have h2 : ∀ g ∈ [wholePixelGlyph, plainGlyph, loadFailGlyph],
      (65536 : ℤ) ∣ g.ft.advance_x ∧ (65536 : ℤ) ∣ g.ft.advance_y := by
    intro g hg
    simp only [List.mem_cons, List.mem_singleton, List.not_mem_nil, or_false] at hg
    rcases hg with rfl | rfl | rfl <;> decide
  have h3 : (paintLoop () true [] [wholePixelGlyph, plainGlyph, loadFailGlyph]).current_x = 3 := by
    have e := (pen_after_foldl () true [] [wholePixelGlyph, plainGlyph, loadFailGlyph]
      PaintLoop.begin).1
    unfold paintLoop
    rw [e]
    have r1 : reachesDraw wholePixelGlyph.ft = true := by decide
    have r2 : reachesDraw plainGlyph.ft = true := by decide
    have r3 : reachesDraw loadFailGlyph.ft = false := by decide
    simp only [List.map_cons, List.map_nil, List.sum_cons, List.sum_nil, r1, r2, r3, if_true]
    norm_num [PaintLoop.begin, wholePixelGlyph, plainGlyph]
  ⟨h1, h2, advance_policies_agree_on_whole_pixels () [] [wholePixelGlyph, plainGlyph, loadFailGlyph]
    h1 h2, h3⟩

/-- C8. For every widget and variations `v`, over a font engine on which setting the same
coordinates a second time leaves the face as the first call left it: `setVariations(v)` twice
gives the same widget state as once; a second `recreateHarfbuzzFont` hands the engine the same
coordinate vector as the first (also when the first had to insert a missing key); and a second
`paint` makes the same calls, so draws the same images at the same positions, and ends with the
same pen as the first. -/
theorem apply_variations_idempotent {Face : Type} (env : Collaborators Face)
    (w : TextWidget Face) (v : AxisVariations)
    (hidem : ∀ (f : Face) (c : List ℤ),
      (env.FT_Set_Var_Design_Coordinates (env.FT_Set_Var_Design_Coordinates f c).2 c).2 =
        (env.FT_Set_Var_Design_Coordinates f c).2) :
    (w.setVariations v).setVariations v = w.setVariations v ∧
    (((w.setVariations v).recreateHarfbuzzFont env).1.recreateHarfbuzzFont env).2.head? =
      ((w.setVariations v).recreateHarfbuzzFont env).2.head? ∧
    ((((w.setVariations v).setVariations v).paint env).calls =
      ((w.setVariations v).paint env).calls) ∧
    ((((w.setVariations v).paint env).widget.paint env).calls =
      ((w.setVariations v).paint env).calls) ∧
    ((((w.setVariations v).paint env).widget.paint env).current_x =
      ((w.setVariations v).paint env).current_x) ∧
    ((((w.setVariations v).paint env).widget.paint env).current_y =
      ((w.setVariations v).paint env).current_y) := by
  have hface2 : (((w.setVariations v).recreateHarfbuzzFont env).1.recreateHarfbuzzFont env).1.ftFont_
      = ((w.setVariations v).recreateHarfbuzzFont env).1.ftFont_ := by
    rw [recreate_ftFont env ((w.setVariations v).recreateHarfbuzzFont env).1,
      recreate_variations, recreate_variations, recreate_ftFont env (w.setVariations v), hidem]
  have hcalls2 : (((w.setVariations v).recreateHarfbuzzFont env).1.recreateHarfbuzzFont env).2
      = ((w.setVariations v).recreateHarfbuzzFont env).2 := by
    rw [recreate_calls env ((w.setVariations v).recreateHarfbuzzFont env).1,
      recreate_variations, recreate_variations, recreate_ftFont env (w.setVariations v), hidem,
      recreate_calls env (w.setVariations v)]
  have hp := paint_congr env ((w.setVariations v).recreateHarfbuzzFont env).1 (w.setVariations v)
    hface2 (recreate_text env _) (recreate_shaping env _) hcalls2
  refine ⟨rfl, ?_, rfl, ?_, ?_, ?_⟩
  · rw [hcalls2]
  · rw [paint_widget]; exact hp.1
  · rw [paint_widget]; exact hp.2.1
  · rw [paint_widget]; exact hp.2.2

/-- Witness of C8: the sample engine, whose face is the coordinate vector last set. -/
theorem apply_variations_idempotent_witness :
    (∀ (f : List ℤ) (c : List ℤ),
      (sampleEnv.FT_Set_Var_Design_Coordinates
        (sampleEnv.FT_Set_Var_Design_Coordinates f c).2 c).2 =
        (sampleEnv.FT_Set_Var_Design_Coordinates f c).2) ∧
    ((sampleWidget.setVariations sampleVariations).setVariations sampleVariations =
      sampleWidget.setVariations sampleVariations ∧
    (((sampleWidget.setVariations sampleVariations).recreateHarfbuzzFont
        sampleEnv).1.recreateHarfbuzzFont sampleEnv).2.head? =
      ((sampleWidget.setVariations sampleVariations).recreateHarfbuzzFont sampleEnv).2.head? ∧
    ((((sampleWidget.setVariations sampleVariations).setVariations sampleVariations).paint
        sampleEnv).calls =
      ((sampleWidget.setVariations sampleVariations).paint sampleEnv).calls) ∧
    ((((sampleWidget.setVariations sampleVariations).paint sampleEnv).widget.paint
        sampleEnv).calls =
      ((sampleWidget.setVariations sampleVariations).paint sampleEnv).calls) ∧
    ((((sampleWidget.setVariations sampleVariations).paint sampleEnv).widget.paint
        sampleEnv).current_x =
      ((sampleWidget.setVariations sampleVariations).paint sampleEnv).current_x) ∧
    ((((sampleWidget.setVariations sampleVariations).paint sampleEnv).widget.paint
        sampleEnv).current_y =
      ((sampleWidget.setVariations sampleVariations).paint sampleEnv).current_y)) :=
  ⟨fun _ _ => rfl,
    apply_variations_idempotent sampleEnv sampleWidget sampleVariations (fun _ _ => rfl)⟩

/-- C9, evaluated at the failing input: a font path for which `FT_New_Face` returns an error.
The contract asks for a report and a non-zero exit before anything else; `main` goes on to
`FT_Set_Char_Size`, hands the face to the widget, enters `app.exec()` and returns its status,
here 0. -/
theorem font_open_failure_not_fatal :
    main ["missing.otf"] "AV" (fun _ => 1) 0 =
      ([StartupCall.FT_Init_FreeType, StartupCall.createWindow,
        StartupCall.FT_New_Face "missing.otf", StartupCall.FT_Set_Char_Size 5120 5120,
        StartupCall.widgetSetFont, StartupCall.widgetSetText "AV", StartupCall.exec,
        StartupCall.FT_Done_FreeType], 0) := by
  decide

end ATM
